import Mathlib

/-!
Verification of the virtual directory browser, session store and
navigation state machine of `torbox_browser.py`.

Python strings are embedded as `List Char` (`PyStr`), so that the string
operations the source uses (`split`, `startswith`, `lstrip`, slicing,
`join`) can be given as structurally recursive Lean functions translated
from Python semantics.
-/

namespace Torbox

/-- Embedding of a Python string as a list of characters. -/
abbrev PyStr := List Char

/-- Coerce a Lean string literal to the `PyStr` embedding. -/
def toP (s : String) : PyStr := s.toList

/-- Python `s.split('/', 1)`: the part before the first `/`, and, when a
`/` occurs, `some` of the remainder after it. -/
def splitFirst : PyStr → PyStr × Option PyStr
  | [] => ([], none)
  | c :: rest =>
    if c = '/' then ([], some rest)
    else
      let p := splitFirst rest
      (c :: p.1, p.2)

/-- Python `s.split('/')`: always non-empty; empty string splits to `[""]`. -/
def pySplit : PyStr → List PyStr
  | [] => [[]]
  | c :: rest =>
    if c = '/' then [] :: pySplit rest
    else
      match pySplit rest with
      | [] => [[c]]
      | seg :: segs => (c :: seg) :: segs

/-- Python `s.startswith(p)` (first argument the string, second the pattern). -/
def pyStartsWith : PyStr → PyStr → Bool
  | _, [] => true
  | [], _ :: _ => false
  | c :: s, d :: p => c = d && pyStartsWith s p

/-- Python `s.lstrip('/')`. -/
def lstripSlash : PyStr → PyStr
  | [] => []
  | c :: rest => if c = '/' then lstripSlash rest else c :: rest

/-- Python `'/'.join(l)`. -/
def pyJoin : List PyStr → PyStr
  | [] => []
  | [s] => s
  | s :: rest => s ++ '/' :: pyJoin rest

/-- Python string `<` (lexicographic on code points). -/
def pyStrLt : PyStr → PyStr → Bool
  | [], [] => false
  | [], _ :: _ => true
  | _ :: _, [] => false
  | c :: s, d :: t => if c = d then pyStrLt s t else decide (c < d)

/-- A `file_obj` record of the remote listing: `id`, `name` (the full
slash-separated path, first segment the torrent root), `size` in bytes. -/
structure FileObj where
  id : Nat
  name : PyStr
  size : Nat
deriving DecidableEq, Repr

/-- An entry of `items['files']` produced by `parse_files_by_depth`. -/
structure FileEntry where
  name : PyStr
  size : Nat
  full_path : PyStr
  file_obj : FileObj
deriving DecidableEq, Repr

/-- The `items` dict produced by `parse_files_by_depth`: a list of file
entries (Python list, insertion ordered) and a set of folder names. -/
structure Items where
  files : List FileEntry
  folders : Finset PyStr

/-- The torrent-root stripping of `parse_files_by_depth` lines 294-298:
`parts = full_path.split('/', 1)`, taking `parts[1]` when it exists and
`parts[0]` otherwise. -/
def relativeToRoot (full_path : PyStr) : PyStr :=
  let parts := splitFirst full_path
  match parts.2 with
  | some r => r
  | none => parts.1

/-- The scope check and relative-path computation of lines 300-307.
Returns `none` when the loop `continue`s (file out of scope), otherwise
`some relative_path`. -/
def scopeRel (current_path : PyStr) (full_path : PyStr) : Option PyStr :=
  let rtr := relativeToRoot full_path
  if current_path ≠ [] then
    if ¬ (pyStartsWith rtr (current_path ++ ['/']) = true) ∧ rtr ≠ current_path then
      none
    else
      some (lstripSlash (rtr.drop current_path.length))
  else
    some rtr

/-- Lines 309-322: split `relative_path` on `/`; exactly one non-empty
segment means a file at this level, more than one segment means the
first segment names an immediate child folder. -/
def classifyEntry (full_path relative_path : PyStr) (file_obj : FileObj) (acc : Items) : Items :=
  if (pySplit relative_path).length = 1 ∧ (pySplit relative_path).headD [] ≠ [] then
    { acc with files :=
        acc.files ++ [⟨(pySplit relative_path).headD [], file_obj.size, full_path, file_obj⟩] }
  else if 1 < (pySplit relative_path).length then
    { acc with folders := insert ((pySplit relative_path).headD []) acc.folders }
  else
    acc

/-- The body of the `for file_obj in files` loop of `parse_files_by_depth`. -/
def parseOne (current_path : PyStr) (acc : Items) (file_obj : FileObj) : Items :=
  match scopeRel current_path file_obj.name with
  | none => acc
  | some relative_path => classifyEntry file_obj.name relative_path file_obj acc

/-- `parse_files_by_depth(files, current_path)` (lines 286-324). -/
def parse_files_by_depth (files : List FileObj) (current_path : PyStr) : Items :=
  files.foldl (parseOne current_path) ⟨[], ∅⟩

/-- Stable insertion used to model Python `sorted(..., key=name)`. -/
def insertFileByName (e : FileEntry) : List FileEntry → List FileEntry
  | [] => [e]
  | b :: t => if pyStrLt e.name b.name then e :: b :: t else b :: insertFileByName e t

/-- Python `sorted(items['files'], key=lambda x: x['name'])` as used at
line 440 of `browse_torrent` for display. -/
def sortFilesByName : List FileEntry → List FileEntry
  | [] => []
  | e :: t => insertFileByName e (sortFilesByName t)

/-- Python dict lookup `d.get(k)` on a dict embedded as an insertion-ordered
association list. -/
def dictGet {β : Type} : List (PyStr × β) → PyStr → Option β
  | [], _ => none
  | (k', v') :: t, k => if k' = k then some v' else dictGet t k

/-- Python dict assignment `d[k] = v`: replace in place when the key is
present, append otherwise. -/
def dictSet {β : Type} : List (PyStr × β) → PyStr → β → List (PyStr × β)
  | [], k, v => [(k, v)]
  | (k', v') :: t, k, v => if k' = k then (k, v) :: t else (k', v') :: dictSet t k v

/-- The `session_data` dict with its known keys; a `none` field models the
key being absent from the dict. `watch_status` maps `full_path` strings to
status strings. -/
structure SessionData where
  watch_status : Option (List (PyStr × PyStr))
  current_path : Option PyStr
  torrent_id : Option Nat
  torrent_name : Option PyStr
  last_file : Option PyStr
deriving DecidableEq

/-- `update_watch_status(session_data, file_path, status)` (lines 410-414):
insert an empty dict when the `watch_status` key is absent, then upsert. -/
def update_watch_status (session_data : SessionData) (file_path status : PyStr) : SessionData :=
  let ws := match session_data.watch_status with
    | none => []
    | some d => d
  { session_data with watch_status := some (dictSet ws file_path status) }

/-- `get_file_status(session_data, file_path)` (lines 404-408); the first
argument is `none` when `session_data` is `None` or lacks `watch_status`. -/
def get_file_status (session_data : Option SessionData) (file_path : PyStr) : Option PyStr :=
  match session_data with
  | none => none
  | some sd =>
    match sd.watch_status with
    | none => none
    | some ws => dictGet ws file_path

/-- The JSON values occurring in a persisted session object. -/
inductive JLeaf where
  | null
  | str (s : PyStr)
  | num (n : Nat)
  | strDict (d : List (PyStr × PyStr))
deriving DecidableEq, Repr

/-- A parsed top-level JSON object, as `json.load` returns for a session file. -/
abbrev JObj := List (PyStr × JLeaf)

/-- The state of the session file on disk: missing, present but
unreadable/unparsable, or holding a JSON object. -/
inductive SessionFile where
  | missing
  | corrupt
  | stored (j : JObj)
deriving DecidableEq

def wsKey : PyStr := toP "watch_status"

def cpKey : PyStr := toP "current_path"

def tidKey : PyStr := toP "torrent_id"

def tnKey : PyStr := toP "torrent_name"

def lfKey : PyStr := toP "last_file"

/-- An optional key of a serialized session object: omitted when the field
was never assigned in the dict. -/
def optEntry (k : PyStr) (v : Option JLeaf) : JObj :=
  match v with
  | none => []
  | some x => [(k, x)]

/-- The JSON object `json.dump` writes for a given `session_data` dict. -/
def encodeSession (s : SessionData) : JObj :=
  optEntry wsKey (s.watch_status.map JLeaf.strDict)
    ++ optEntry cpKey (s.current_path.map JLeaf.str)
    ++ optEntry tidKey (s.torrent_id.map JLeaf.num)
    ++ optEntry tnKey (s.torrent_name.map JLeaf.str)
    ++ optEntry lfKey (s.last_file.map JLeaf.str)

/-- Read an optional string-valued key back from a session object. -/
def decField (v : Option JLeaf) : Option (Option PyStr) :=
  match v with
  | none => some none
  | some (JLeaf.str s) => some (some s)
  | some _ => none

/-- Read an optional numeric key back from a session object. -/
def decNumField (v : Option JLeaf) : Option (Option Nat) :=
  match v with
  | none => some none
  | some (JLeaf.num n) => some (some n)
  | some _ => none

/-- Read the optional `watch_status` dict back from a session object. -/
def decDictField (v : Option JLeaf) : Option (Option (List (PyStr × PyStr))) :=
  match v with
  | none => some none
  | some (JLeaf.strDict d) => some (some d)
  | some _ => none

/-- Recover the `session_data` dict from a parsed session object, reading
each known key; fails on a key of the wrong shape. -/
def decodeSession (j : JObj) : Option SessionData :=
  match decDictField (dictGet j wsKey), decField (dictGet j cpKey),
      decNumField (dictGet j tidKey), decField (dictGet j tnKey),
      decField (dictGet j lfKey) with
  | some ws, some cp, some tid, some tn, some lf => some ⟨ws, cp, tid, tn, lf⟩
  | _, _, _, _, _ => none

/-- `load_session()` (lines 127-135): `None` when the file is missing, and
`None` (via the bare `except`) when its content does not parse; otherwise
whatever JSON object the file holds. -/
def load_session (fs : SessionFile) : Option JObj :=
  match fs with
  | SessionFile.missing => none
  | SessionFile.corrupt => none
  | SessionFile.stored j => some j

/-- `save_session(data)` (lines 137-140): overwrite the session file with
the JSON serialization of `data`. -/
def save_session (data : SessionData) : SessionFile :=
  SessionFile.stored (encodeSession data)

/-- A torrent record as used by `browse_torrent`: `id`, `name`, `files`. -/
structure Torrent where
  id : Nat
  name : PyStr
  files : List FileObj

/-- The external collaborators consulted by the play action:
`get_streaming_url` (yields `none` on failure) and `launch_mpv`
(reports success as a flag). -/
structure PlayEnv where
  resolve : Option PyStr
  launch : PyStr → Bool

/-- The mutable state of one `browse_torrent` loop iteration: the
in-memory `session_data`, the loop-local `current_path`, and the
persisted session file. -/
structure BrowseState where
  session_data : SessionData
  current_path : PyStr
  disk : SessionFile

def inProgress : PyStr := toP "in-progress"

def completedStatus : PyStr := toP "completed"

/-- The `action == 'p'` branch of `browse_torrent` (lines 509-532): on a
resolved URL and a successful MPV launch, mark the file in-progress,
record path/torrent/last-file in the session, persist it, and return the
exit signal (`True`); on any failure, leave all state unchanged and stay
in the browsing loop (`False`). -/
def playAction (env : PlayEnv) (t : Torrent) (item : FileEntry) (st : BrowseState) :
    BrowseState × Bool :=
  match env.resolve with
  | none => (st, false)
  | some url =>
    if env.launch url then
      let sd0 := update_watch_status st.session_data item.full_path inProgress
      let sd1 : SessionData :=
        { sd0 with
          current_path := some st.current_path
          torrent_id := some t.id
          torrent_name := some t.name
          last_file := some item.full_path }
      ({ session_data := sd1, current_path := st.current_path, disk := save_session sd1 }, true)
    else
      (st, false)

/-- One navigation input of the browsing loop: entering a listed folder,
or going up one level. -/
inductive NavStep where
  | enter (f : PyStr)
  | back

/-- The effect of one navigation step on `current_path`: entering folder
`f` (line 497, only offered when `f` is in the current listing) appends a
segment; going back at a non-root path (line 463) drops the last
`/`-separated segment. `none` marks inputs the loop does not treat as a
path change (a folder not listed, or back at root, which exits). -/
def navApply (files : List FileObj) (p : PyStr) : NavStep → Option PyStr
  | NavStep.enter f =>
    if f ∈ (parse_files_by_depth files p).folders then
      some (if p ≠ [] then p ++ '/' :: f else f)
    else
      none
  | NavStep.back =>
    if p ≠ [] then some (pyJoin (pySplit p).dropLast) else none

/-- Iterate navigation steps from a starting path. -/
def navigate (files : List FileObj) : PyStr → List NavStep → Option PyStr
  | p, [] => some p
  | p, s :: rest =>
    match navApply files p s with
    | none => none
    | some p' => navigate files p' rest

/-- A virtual path has no empty `/`-separated segment (so no `//`, no
leading and no trailing `/`), except that the root path is empty. -/
def noEmptySeg (p : PyStr) : Prop :=
  p = [] ∨ ∀ s ∈ pySplit p, s ≠ []

theorem dictGet_dictSet_self {β : Type} (d : List (PyStr × β)) (k : PyStr) (v : β) :
    dictGet (dictSet d k v) k = some v := by
  induction d with
  | nil => simp [dictGet, dictSet]
  | cons p t ih =>
    obtain ⟨k', v'⟩ := p
    by_cases h : k' = k
    · simp [dictGet, dictSet, h]
    · simp [dictGet, dictSet, h, ih]

theorem pySplit_ne_nil (s : PyStr) : pySplit s ≠ [] := by
  cases s with
  | nil => simp [pySplit]
  | cons c rest =>
    by_cases h : c = '/'
    · simp [pySplit, h]
    · simp only [pySplit, if_neg h]
      cases hr : pySplit rest <;> simp

theorem not_slash_mem_of_mem_pySplit {s seg : PyStr} (h : seg ∈ pySplit s) : '/' ∉ seg := by
  induction s generalizing seg with
  | nil =>
    simp [pySplit] at h
    simp [h]
  | cons c rest ih =>
    by_cases hc : c = '/'
    · simp only [pySplit, if_pos hc, List.mem_cons] at h
      rcases h with h | h
      · simp [h]
      · exact ih h
    · simp only [pySplit, if_neg hc] at h
      cases hr : pySplit rest with
      | nil => exact absurd hr (pySplit_ne_nil rest)
      | cons seg0 segs =>
        rw [hr] at h
        rcases List.mem_cons.mp h with h | h
        · subst h
          intro hmem
          rcases List.mem_cons.mp hmem with h' | h'
          · exact hc h'.symm
          · exact ih (hr ▸ List.mem_cons_self seg0 segs) h'
        · exact ih (hr ▸ List.mem_cons_of_mem seg0 h)

theorem pySplit_append_slash (a b : PyStr) :
    pySplit (a ++ '/' :: b) = pySplit a ++ pySplit b := by
  induction a with
  | nil => simp [pySplit]
  | cons c a' ih =>
    by_cases hc : c = '/'
    · simp [pySplit, hc, ih]
    · cases ha : pySplit a' with
      | nil => exact absurd ha (pySplit_ne_nil a')
      | cons seg segs => simp [pySplit, if_neg hc, ih, ha]

theorem pySplit_of_not_slash_mem {f : PyStr} (h : '/' ∉ f) : pySplit f = [f] := by
  induction f with
  | nil => simp [pySplit]
  | cons c t ih =>
    have hc : c ≠ '/' := fun hceq => h (hceq ▸ List.mem_cons_self c t)
    have ht : '/' ∉ t := fun hmem => h (List.mem_cons_of_mem c hmem)
    simp [pySplit, hc, ih ht]

theorem pySplit_pyJoin {l : List PyStr} (hne : l ≠ [])
    (hfree : ∀ s ∈ l, '/' ∉ s) : pySplit (pyJoin l) = l := by
  induction l with
  | nil => exact absurd rfl hne
  | cons x t ih =>
    cases t with
    | nil =>
      simp only [pyJoin]
      exact pySplit_of_not_slash_mem (hfree x (List.mem_cons_self x []))
    | cons y t' =>
      have hstep : pyJoin (x :: y :: t') = x ++ '/' :: pyJoin (y :: t') := rfl
      rw [hstep, pySplit_append_slash,
        pySplit_of_not_slash_mem (hfree x (List.mem_cons_self x (y :: t'))),
        ih (by simp) (fun s hs => hfree s (List.mem_cons_of_mem x hs))]
      rfl

theorem lstripSlash_ne_slash_cons (s t : PyStr) : lstripSlash s ≠ '/' :: t := by
  induction s with
  | nil => simp [lstripSlash]
  | cons c rest ih =>
    by_cases hc : c = '/'
    · simpa [lstripSlash, hc] using ih
    · simp [lstripSlash, hc]

theorem folders_origin (cp : PyStr) (l : List FileObj) (acc : Items) (f : PyStr)
    (h : f ∈ (l.foldl (parseOne cp) acc).folders) :
    f ∈ acc.folders ∨ ∃ fo ∈ l, ∃ rp, scopeRel cp fo.name = some rp ∧
      1 < (pySplit rp).length ∧ (pySplit rp).headD [] = f := by
  induction l generalizing acc with
  | nil => exact Or.inl (by simpa using h)
  | cons x t ih =>
    rw [List.foldl_cons] at h
    rcases ih (parseOne cp acc x) h with h1 | h1
    · unfold parseOne at h1
      cases hs : scopeRel cp x.name with
      | none =>
        rw [hs] at h1
        exact Or.inl h1
      | some rp =>
        rw [hs] at h1
        have h1 : f ∈ (classifyEntry x.name rp x acc).folders := h1
        unfold classifyEntry at h1
        by_cases hfile : (pySplit rp).length = 1 ∧ (pySplit rp).headD [] ≠ []
        · rw [if_pos hfile] at h1
          exact Or.inl h1
        · rw [if_neg hfile] at h1
          by_cases hfold : 1 < (pySplit rp).length
          · rw [if_pos hfold] at h1
            rcases Finset.mem_insert.mp h1 with h2 | h2
            · exact Or.inr ⟨x, List.mem_cons_self x t, rp, hs, hfold, h2.symm⟩
            · exact Or.inl h2
          · rw [if_neg hfold] at h1
            exact Or.inl h1
    · obtain ⟨fo, hmem, hP⟩ := h1
      exact Or.inr ⟨fo, List.mem_cons_of_mem x hmem, hP⟩

theorem parse_folders_origin (files : List FileObj) (cp f : PyStr)
    (h : f ∈ (parse_files_by_depth files cp).folders) :
    ∃ fo ∈ files, ∃ rp, scopeRel cp fo.name = some rp ∧
      1 < (pySplit rp).length ∧ (pySplit rp).headD [] = f := by
  rcases folders_origin cp files ⟨[], ∅⟩ f h with h1 | h1
  · simp at h1
  · exact h1

theorem scopeRel_eq_lstrip {cp nm rp : PyStr} (hcp : cp ≠ [])
    (h : scopeRel cp nm = some rp) :
    rp = lstripSlash ((relativeToRoot nm).drop cp.length) := by
  unfold scopeRel at h
  rw [if_pos hcp] at h
  by_cases hc : ¬ (pyStartsWith (relativeToRoot nm) (cp ++ ['/']) = true) ∧
      relativeToRoot nm ≠ cp
  · rw [if_pos hc] at h
    exact absurd h (by simp)
  · rw [if_neg hc] at h
    exact (Option.some.injEq _ _ ▸ h).symm

theorem pySplit_headD_ne_nil {rp : PyStr} (hne : rp ≠ [])
    (hs : ∀ t, rp ≠ '/' :: t) : (pySplit rp).headD [] ≠ [] := by
  cases rp with
  | nil => exact absurd rfl hne
  | cons c r =>
    have hc : c ≠ '/' := by
      intro hceq
      exact hs r (by rw [hceq])
    simp only [pySplit, if_neg hc]
    cases hr : pySplit r with
    | nil => simp
    | cons seg segs => simp

theorem folder_not_slash_mem {files : List FileObj} {cp f : PyStr}
    (h : f ∈ (parse_files_by_depth files cp).folders) : '/' ∉ f := by
  obtain ⟨fo, _, rp, _, hlen, hhead⟩ := parse_folders_origin files cp f h
  cases hsp : pySplit rp with
  | nil => exact absurd hsp (pySplit_ne_nil rp)
  | cons s0 segs =>
    have hf : f = s0 := by rw [← hhead, hsp]; rfl
    rw [hf]
    exact not_slash_mem_of_mem_pySplit (hsp ▸ List.mem_cons_self s0 segs)

theorem folder_ne_nil {files : List FileObj} {cp f : PyStr} (hcp : cp ≠ [])
    (h : f ∈ (parse_files_by_depth files cp).folders) : f ≠ [] := by
  obtain ⟨fo, _, rp, hs, hlen, hhead⟩ := parse_folders_origin files cp f h
  have hrp := scopeRel_eq_lstrip hcp hs
  have hrpne : rp ≠ [] := by
    intro hnil
    rw [hnil] at hlen
    simp [pySplit] at hlen
  have hnotslash : ∀ t, rp ≠ '/' :: t := by
    intro t
    rw [hrp]
    exact lstripSlash_ne_slash_cons _ t
  rw [← hhead]
  exact pySplit_headD_ne_nil hrpne hnotslash

theorem noEmptySeg_navApply {files : List FileObj} {p p' : PyStr} {st : NavStep}
    (hp : noEmptySeg p) (h : navApply files p st = some p') : noEmptySeg p' := by
  cases st with
  | enter f =>
    have h : (if f ∈ (parse_files_by_depth files p).folders then
        some (if p ≠ [] then p ++ '/' :: f else f) else none) = some p' := h
    by_cases hf : f ∈ (parse_files_by_depth files p).folders
    · rw [if_pos hf, Option.some.injEq] at h
      by_cases hpe : p = []
      · have hnn : ¬ p ≠ [] := fun hn => hn hpe
        rw [if_neg hnn] at h
        by_cases hfe : f = []
        · exact Or.inl (by rw [← h, hfe])
        · refine Or.inr ?_
          rw [← h, pySplit_of_not_slash_mem (folder_not_slash_mem hf)]
          intro s hs
          rw [List.mem_singleton.mp hs]
          exact hfe
      · rw [if_pos hpe] at h
        refine Or.inr ?_
        rw [← h, pySplit_append_slash, pySplit_of_not_slash_mem (folder_not_slash_mem hf)]
        intro s hs
        rcases List.mem_append.mp hs with hmem | hmem
        · rcases hp with hnil | hall
          · exact absurd hnil hpe
          · exact hall s hmem
        · rw [List.mem_singleton.mp hmem]
          exact folder_ne_nil hpe hf
    · rw [if_neg hf] at h
      cases h
  | back =>
    have h : (if p ≠ [] then some (pyJoin (pySplit p).dropLast) else none) = some p' := h
    by_cases hpe : p ≠ []
    · rw [if_pos hpe, Option.some.injEq] at h
      cases hdl : (pySplit p).dropLast with
      | nil => exact Or.inl (by rw [← h, hdl]; rfl)
      | cons a l =>
        refine Or.inr ?_
        have hfree : ∀ s ∈ (pySplit p).dropLast, '/' ∉ s := fun s hs =>
          not_slash_mem_of_mem_pySplit (List.dropLast_subset _ hs)
        rw [← h, pySplit_pyJoin (by rw [hdl]; simp) hfree]
        intro s hs
        have hmem : s ∈ pySplit p := List.dropLast_subset _ hs
        rcases hp with hnil | hall
        · exact absurd hnil hpe
        · exact hall s hmem
    · rw [if_neg hpe] at h
      cases h

theorem navigate_noEmptySeg {files : List FileObj} :
    ∀ (steps : List NavStep) (p p' : PyStr), noEmptySeg p →
      navigate files p steps = some p' → noEmptySeg p' := by
  intro steps
  induction steps with
  | nil =>
    intro p p' hp h
    unfold navigate at h
    rw [Option.some.injEq] at h
    exact h ▸ hp
  | cons s rest ih =>
    intro p p' hp h
    unfold navigate at h
    cases ha : navApply files p s with
    | none =>
      rw [ha] at h
      cases h
    | some q =>
      rw [ha] at h
      exact ih q p' (noEmptySeg_navApply hp ha) h

theorem decodeSession_encodeSession (s : SessionData) :
    decodeSession (encodeSession s) = some s := by
  obtain ⟨ws, cp, tid, tn, lf⟩ := s
  cases ws <;> cases cp <;> cases tid <;> cases tn <;> cases lf <;>
    simp +decide [decodeSession, encodeSession, optEntry, dictGet,
      decDictField, decField, decNumField]

/-! Concrete sample data used by witnesses and counterexamples. -/

/-- The file set of the spec's worked scenario. -/
def c2Files : List FileObj :=
  [⟨1, toP "Show/S01E01.mkv", 100⟩, ⟨2, toP "Show/S01E02.mkv", 200⟩,
   ⟨3, toP "Show/Extras/poster.jpg", 10⟩]

/-- A file whose relative-to-root path equals the directory key exactly. -/
def c1File : FileObj := ⟨9, toP "Show/Extras", 7⟩

/-- A file set where a file shares its name with a listed folder. -/
def c8Files : List FileObj := [⟨1, toP "Show/A", 1⟩, ⟨2, toP "Show/A/b.mkv", 2⟩]

def sampleFile : FileObj := ⟨7, toP "Show/S01E01.mkv", 100⟩

def sampleEntry : FileEntry := ⟨toP "S01E01.mkv", 100, toP "Show/S01E01.mkv", sampleFile⟩

def sampleTorrent : Torrent := ⟨42, toP "Show", [sampleFile]⟩

/-- A fresh `session_data` as built at startup: `{'watch_status': {}}`. -/
def sampleSession : SessionData := ⟨some [], none, none, none, none⟩

def sampleState : BrowseState := ⟨sampleSession, [], SessionFile.missing⟩

/-- A browse state whose session already records the sample file as completed. -/
def completedState : BrowseState :=
  ⟨⟨some [(toP "Show/S01E01.mkv", completedStatus)], none, none, none, none⟩, [],
    SessionFile.missing⟩

/-- Collaborators for a failed play: no streaming URL, and a player that
reports failure. -/
def envFail : PlayEnv := ⟨none, fun _ => false⟩

def sampleUrl : PyStr := toP "https://cdn.example/f"

/-- Collaborators for a successful play. -/
def envOk : PlayEnv := ⟨some sampleUrl, fun _ => true⟩

/-! The claims. -/

/-- Claim C1, counterexample: for the file `Show/Extras` browsed at
`current_path = "Extras"`, the relative-to-root path equals `current_path`
exactly, yet `parse_files_by_depth` lists it neither as a file nor as a
folder — the listing is empty, contradicting "included as a file". -/
theorem claim_C1_counterexample :
    relativeToRoot c1File.name = toP "Extras" ∧
    (parse_files_by_depth [c1File] (toP "Extras")).files = [] ∧
    (parse_files_by_depth [c1File] (toP "Extras")).folders = ∅ := by
  refine ⟨by decide, by decide, by decide⟩

/-- Claim C1 as amended: for every non-empty `current_path`, a file whose
relative-to-root path equals `current_path` exactly passes the scope
filter but reduces to an empty relative path, so it contributes nothing
to the listing — it appears neither as a file nor as a folder. -/
theorem claim_C1_exact_match_contributes_nothing (files : List FileObj) (f : FileObj)
    (cp : PyStr) (hcp : cp ≠ []) (hrel : relativeToRoot f.name = cp) :
    parse_files_by_depth (files ++ [f]) cp = parse_files_by_depth files cp := by
  have hscope : scopeRel cp f.name = some [] := by
    simp [scopeRel, hrel, hcp, List.drop_length, lstripSlash]
  have hone : ∀ acc, parseOne cp acc f = acc := by
    intro acc
    simp [parseOne, hscope, classifyEntry, pySplit]
  unfold parse_files_by_depth
  rw [List.foldl_append]
  simp [hone]

/-- Witness for the amended claim C1 at the counterexample input. -/
theorem claim_C1_witness :
    ((toP "Extras" : PyStr) ≠ [] ∧ relativeToRoot c1File.name = toP "Extras") ∧
    parse_files_by_depth ([] ++ [c1File]) (toP "Extras") =
      parse_files_by_depth [] (toP "Extras") :=
  ⟨⟨by decide, by decide⟩,
    claim_C1_exact_match_contributes_nothing [] c1File (toP "Extras") (by decide) (by decide)⟩

/-- Claim C2: on the spec's worked file set, the root listing has folder
set `{"Extras"}` and, sorted by name, the files `S01E01.mkv` (100) and
`S01E02.mkv` (200); the `"Extras"` listing has no folders and only
`poster.jpg` (10). -/
theorem claim_C2_scenario :
    (parse_files_by_depth c2Files []).folders = {toP "Extras"} ∧
    (sortFilesByName (parse_files_by_depth c2Files []).files).map (fun e => (e.name, e.size))
      = [(toP "S01E01.mkv", 100), (toP "S01E02.mkv", 200)] ∧
    (parse_files_by_depth c2Files (toP "Extras")).folders = ∅ ∧
    (sortFilesByName (parse_files_by_depth c2Files (toP "Extras")).files).map
        (fun e => (e.name, e.size))
      = [(toP "poster.jpg", 10)] := by
  refine ⟨by decide, by decide, by decide, by decide⟩

/-- Claim C3: when the streaming URL is absent or the player launch
fails, the play action leaves the whole browse state — watch status,
in-memory session, persisted session, and current path — unchanged and
does not exit the browsing loop. -/
theorem claim_C3_play_failure_no_mutation (env : PlayEnv) (t : Torrent) (item : FileEntry)
    (st : BrowseState)
    (h : env.resolve = none ∨ ∃ u, env.resolve = some u ∧ env.launch u = false) :
    playAction env t item st = (st, false) := by
  rcases h with h | ⟨u, hu, hl⟩
  · simp [playAction, h]
  · simp [playAction, hu, hl]

/-- Witness for claim C3: a play with no resolvable URL. -/
theorem claim_C3_witness :
    (envFail.resolve = none ∨ ∃ u, envFail.resolve = some u ∧ envFail.launch u = false) ∧
    playAction envFail sampleTorrent sampleEntry sampleState = (sampleState, false) :=
  ⟨Or.inl rfl,
    claim_C3_play_failure_no_mutation envFail sampleTorrent sampleEntry sampleState (Or.inl rfl)⟩

/-- Claim C4: on a resolved URL and a confirmed successful player launch,
the play action marks the file in-progress, keeps the browse path,
records path, torrent id, torrent name and last-played file in the
session, persists exactly that session to disk, and returns the exit
signal. -/
theorem claim_C4_play_success_persists_and_exits (env : PlayEnv) (t : Torrent)
    (item : FileEntry) (st : BrowseState) (u : PyStr)
    (hres : env.resolve = some u) (hlaunch : env.launch u = true) :
    (playAction env t item st).2 = true ∧
    (playAction env t item st).1.current_path = st.current_path ∧
    (playAction env t item st).1.session_data.current_path = some st.current_path ∧
    (playAction env t item st).1.session_data.torrent_id = some t.id ∧
    (playAction env t item st).1.session_data.torrent_name = some t.name ∧
    (playAction env t item st).1.session_data.last_file = some item.full_path ∧
    get_file_status (some (playAction env t item st).1.session_data) item.full_path
      = some inProgress ∧
    (playAction env t item st).1.disk = save_session (playAction env t item st).1.session_data := by
  simp [playAction, hres, hlaunch, update_watch_status, get_file_status, dictGet_dictSet_self]

/-- Witness for claim C4: a successful play from a fresh session. -/
theorem claim_C4_witness :
    (envOk.resolve = some sampleUrl ∧ envOk.launch sampleUrl = true) ∧
    ((playAction envOk sampleTorrent sampleEntry sampleState).2 = true ∧
     (playAction envOk sampleTorrent sampleEntry sampleState).1.current_path
        = sampleState.current_path ∧
     (playAction envOk sampleTorrent sampleEntry sampleState).1.session_data.current_path
        = some sampleState.current_path ∧
     (playAction envOk sampleTorrent sampleEntry sampleState).1.session_data.torrent_id
        = some sampleTorrent.id ∧
     (playAction envOk sampleTorrent sampleEntry sampleState).1.session_data.torrent_name
        = some sampleTorrent.name ∧
     (playAction envOk sampleTorrent sampleEntry sampleState).1.session_data.last_file
        = some sampleEntry.full_path ∧
     get_file_status (some (playAction envOk sampleTorrent sampleEntry sampleState).1.session_data)
        sampleEntry.full_path = some inProgress ∧
     (playAction envOk sampleTorrent sampleEntry sampleState).1.disk
        = save_session (playAction envOk sampleTorrent sampleEntry sampleState).1.session_data) :=
  ⟨⟨rfl, rfl⟩,
    claim_C4_play_success_persists_and_exits envOk sampleTorrent sampleEntry sampleState
      sampleUrl rfl rfl⟩

/-- Claim C5: saving any session value and loading it back returns the
very object that was saved, and the serialized form determines the
session exactly (decoding inverts encoding). -/
theorem claim_C5_session_roundtrip (s : SessionData) :
    load_session (save_session s) = some (encodeSession s) ∧
    decodeSession (encodeSession s) = some s :=
  ⟨rfl, decodeSession_encodeSession s⟩

/-- Claim C6: loading returns `none` — never an error — both when the
session file is missing and when its content is unreadable or
unparsable. -/
theorem claim_C6_load_absent_on_missing_or_corrupt :
    load_session SessionFile.missing = none ∧ load_session SessionFile.corrupt = none :=
  ⟨rfl, rfl⟩

/-- Claim C7: the listing computation is idempotent — two calls on the
same inputs give identical output. The embedding is a pure function of
the file list because the source loop only reads `file_obj` fields, so
the call cannot mutate the supplied file set. -/
theorem claim_C7_pathindex_idempotent (files : List FileObj) (cp : PyStr) :
    parse_files_by_depth files cp = parse_files_by_depth files cp := rfl

/-- Claim C8, counterexample: with files `Show/A` and `Show/A/b.mkv` at
the root, the name `A` is simultaneously a listed folder and a listed
file name, so the folder and file name sets are not disjoint. -/
theorem claim_C8_counterexample :
    toP "A" ∈ (parse_files_by_depth c8Files []).folders ∧
    toP "A" ∈ (parse_files_by_depth c8Files []).files.map (fun e => e.name) := by
  refine ⟨by decide, by decide⟩

/-- Claim C8 as amended: the folder and file name sets need not be
disjoint (a file may share its name with a listed folder), but every
listed folder name does have a non-empty subtree: it originates from an
in-scope file whose relative path has at least two segments, the first
being the folder name — a file strictly below the folder. -/
theorem claim_C8_folders_have_subtree (files : List FileObj) (cp f : PyStr)
    (h : f ∈ (parse_files_by_depth files cp).folders) :
    ∃ fo ∈ files, ∃ rp, scopeRel cp fo.name = some rp ∧
      1 < (pySplit rp).length ∧ (pySplit rp).headD [] = f :=
  parse_folders_origin files cp f h

/-- Witness for the amended claim C8 at the counterexample input. -/
theorem claim_C8_witness :
    toP "A" ∈ (parse_files_by_depth c8Files []).folders ∧
    ∃ fo ∈ c8Files, ∃ rp, scopeRel [] fo.name = some rp ∧
      1 < (pySplit rp).length ∧ (pySplit rp).headD [] = toP "A" :=
  ⟨by decide, claim_C8_folders_have_subtree c8Files [] (toP "A") (by decide)⟩

/-- Claim C9: starting at the root, any sequence of navigation steps the
browser accepts (entering a listed folder, going up a level) yields a
virtual path with no empty slash-separated segment — no `//`, no leading
and no trailing `/` — for every input file set, including ones whose
full paths contain consecutive or trailing slashes. -/
theorem claim_C9_no_empty_segments (files : List FileObj) (steps : List NavStep) (p' : PyStr)
    (h : navigate files [] steps = some p') : noEmptySeg p' :=
  navigate_noEmptySeg steps [] p' (Or.inl rfl) h

/-- Witness for claim C9: entering `Extras` and going back on the sample
file set. -/
theorem claim_C9_witness :
    navigate c2Files [] [NavStep.enter (toP "Extras"), NavStep.back] = some [] ∧
    noEmptySeg [] :=
  ⟨by decide,
    claim_C9_no_empty_segments c2Files [NavStep.enter (toP "Extras"), NavStep.back] []
      (by decide)⟩

/-- Claim C10: setting a watch status overwrites unconditionally for
every key and every prior value; in particular a successful play of a
file already marked completed resets its status to in-progress. -/
theorem claim_C10_watch_overwrite :
    (∀ (sd : SessionData) (fp status : PyStr),
      get_file_status (some (update_watch_status sd fp status)) fp = some status) ∧
    (∀ (env : PlayEnv) (t : Torrent) (item : FileEntry) (st : BrowseState) (u : PyStr),
      env.resolve = some u → env.launch u = true →
      get_file_status (some st.session_data) item.full_path = some completedStatus →
      get_file_status (some (playAction env t item st).1.session_data) item.full_path
        = some inProgress) := by
  constructor
  · intro sd fp status
    simp [get_file_status, update_watch_status, dictGet_dictSet_self]
  · intro env t item st u hres hlaunch _
    simp [playAction, hres, hlaunch, get_file_status, update_watch_status, dictGet_dictSet_self]

/-- Witness for claim C10: a successful play of a file whose recorded
status is completed ends with the status in-progress. -/
theorem claim_C10_witness :
    (envOk.resolve = some sampleUrl ∧ envOk.launch sampleUrl = true ∧
     get_file_status (some completedState.session_data) sampleEntry.full_path
       = some completedStatus) ∧
    get_file_status
        (some (playAction envOk sampleTorrent sampleEntry completedState).1.session_data)
        sampleEntry.full_path = some inProgress :=
  ⟨⟨rfl, rfl, by decide⟩,
    claim_C10_watch_overwrite.2 envOk sampleTorrent sampleEntry completedState sampleUrl
      rfl rfl (by decide)⟩

end Torbox
